import Mathlib

/-!
Shallow embedding of the core of the Lojistik-Asistan order-tracking
application: the spreadsheet row mapper (`parseExcelData`), the date
normalizer (`parseDateToDaysRemaining`), the risk classifier
(`recalculateStatus`), the manual/AI date-update handler
(`handleUpdateItem`) and the snapshot diff engine (`compareDatasets`).

Modelling conventions:
* JavaScript `string` is `String`; `undefined` on optional fields is
  `Option.none`.
* JavaScript numbers are modelled as `Int`.  All number values the
  verified claims depend on (day counts, epoch milliseconds, counters)
  are integral in the source; `NaN` on the quantity fields produced by
  `Number(...)` is modelled as `Option.none`.
* `Date` values are epoch milliseconds (`Int`).  The local time zone is
  an explicit offset parameter `off` (local time = UTC + `off` ms), and
  the host-dependent pieces of `Date` (generic string parsing, the
  year/month/day constructor, locale formatting) are oracle fields of a
  `JsEnv` record, so every theorem quantifies over all possible hosts
  and clock values.
* A JavaScript `Map` / plain object keyed by strings is an insertion
  ordered association list with unique keys (`JsMap`); `Object.values`
  is modelled as insertion order.  Every property proved about the
  vendor grouping is insensitive to the enumeration order.
-/

/-- JavaScript truthiness of a string: the empty string is falsy. -/
def strTruthy (s : String) : Bool := s ≠ ""

/-- JavaScript truthiness of a `string | undefined` value. -/
def optTruthy : Option String → Bool
  | none => false
  | some s => strTruthy s

/-- JavaScript `a || b` on `string | undefined` values. -/
def jsOrStr (a b : Option String) : Option String :=
  if optTruthy a then a else b

/-- One raw spreadsheet cell as delivered by `sheet_to_json(..., {header: 1})`:
`empty` models `null`/`undefined`/holes, `str` a text cell, `num` a numeric
cell (integral numbers only; see the header comment). -/
inductive Cell where
  | empty : Cell
  | str : String → Cell
  | num : Int → Cell
deriving DecidableEq, Repr

/-- JavaScript truthiness of a cell value (`undefined`, `''` and `0` are falsy). -/
def cellTruthy : Cell → Bool
  | .empty => false
  | .str s => s ≠ ""
  | .num n => n ≠ 0

/-- JavaScript `String(c || '')` applied to a cell. -/
def cellToStr : Cell → String
  | .empty => ""
  | .str s => s
  | .num n => if n = 0 then "" else toString n

/-- Leading decimal-digit run of a character list, as `parseInt` reads it;
`none` when no digit is present. -/
def leadingDigits (cs : List Char) : Option Nat :=
  let ds := cs.takeWhile (fun c => c.isDigit)
  if ds.isEmpty then none
  else some (ds.foldl (fun n c => 10 * n + (c.toNat - '0'.toNat)) 0)

/-- JavaScript `parseInt(s, 10)`: skip leading whitespace, optional sign,
then the longest digit prefix; `none` models `NaN`. -/
def jsParseIntStr (s : String) : Option Int :=
  match s.data.dropWhile (fun c => c.isWhitespace) with
  | '-' :: rest => (leadingDigits rest).map (fun n => -(n : Int))
  | '+' :: rest => (leadingDigits rest).map (fun n => (n : Int))
  | cs => (leadingDigits cs).map (fun n => (n : Int))

/-- The guard `rawKalan !== null && rawKalan !== '' && !isNaN(parseInt(rawKalan))`
used for the literal "KALAN GÜN" column (SettingsModal.tsx bundle lines
386-390, src/unnamed/part_005 line 162). -/
def kalanGuard : Cell → Bool
  | .empty => false
  | .str s => s ≠ "" && (jsParseIntStr s).isSome
  | .num _ => true

/-- `parseInt(rawKalan, 10)` on a cell that passed `kalanGuard`. -/
def jsParseIntCell : Cell → Int
  | .empty => 0
  | .str s => (jsParseIntStr s).getD 0
  | .num n => n

/-- Whitespace-trim on a character list (the behaviour of `String.trim`,
restated structurally so that proofs and witnesses can evaluate it). -/
def trimChars (cs : List Char) : List Char :=
  ((cs.dropWhile (fun c => c.isWhitespace)).reverse.dropWhile
    (fun c => c.isWhitespace)).reverse

/-- JavaScript `s.split('.')` on the underlying characters (the behaviour
of `String.splitOn "."`, restated structurally so that proofs and
witnesses can evaluate it). -/
def splitDot : List Char → List (List Char)
  | [] => [[]]
  | c :: rest =>
      match splitDot rest with
      | [] => [[]]
      | g :: gs => if c = '.' then [] :: g :: gs else (c :: g) :: gs

/-- Whether `Number(s)` yields a non-`NaN` number: optional sign, digits with
at most one decimal point (exponent/hex forms are not modelled; no claim
depends on them). -/
def jsIsNumeric (s : String) : Bool :=
  let t :=
    match trimChars s.data with
    | '+' :: r => r
    | '-' :: r => r
    | r => r
  let ds := t.takeWhile (fun c => c.isDigit)
  let rest := t.dropWhile (fun c => c.isDigit)
  match rest with
  | [] => !ds.isEmpty
  | '.' :: fs => (!ds.isEmpty || !fs.isEmpty) && fs.all (fun c => c.isDigit)
  | _ => false

/-- JavaScript `Number(c || 0)` on a cell; `none` models `NaN` (fractional
string values are also collapsed to `none`, see `jsIsNumeric`). -/
def cellToNum (c : Cell) : Option Int :=
  match c with
  | .empty => some 0
  | .str s =>
      if s = "" then some 0
      else if jsIsNumeric s then jsParseIntStr s else none
  | .num n => some n

/-- Risk bucket of an order line. -/
inductive Status where
  | critical : Status
  | warning : Status
  | ok : Status
deriving DecidableEq, Repr

/-- The `SapOrderItem` record of `types.ts` (one Order Line).  Optional
fields of the interface are `Option`; `ilkTarih` is the parsed
first-promised date the parser attaches to each item. -/
structure SapOrderItem where
  saBelgesi : String
  kalanGun : Int
  saticiKodu : String
  saticiAdi : String
  malzeme : String
  kisaMetin : String
  sasMiktari : Option Int
  malGirisMiktari : Option Int
  bakiyeMiktari : Option Int
  olcuBirimi : String
  teslimatTarihi : Option String
  ilkTarih : Option String
  sasKalemNo : Option String
  revizeTarih : Option String
  aciklama : Option String
  talepEden : Option String
  olusturan : Option String
  status : Option Status
deriving DecidableEq, Repr

/-- The `DiffType` union of `types.ts` (`'unchanged'` is declared but never
constructed by the diff engine). -/
inductive DiffType where
  | added : DiffType
  | removed : DiffType
  | updated : DiffType
  | unchanged : DiffType
deriving DecidableEq, Repr

/-- The `DiffItem` record of `types.ts`. -/
structure DiffItem where
  type : DiffType
  item : SapOrderItem
  oldDate : Option String := none
  newDate : Option String := none
deriving DecidableEq, Repr

/-- The `VendorComparison` record of `types.ts`. -/
structure VendorComparison where
  vendorId : String
  vendorName : String
  addedCount : Nat
  removedCount : Nat
  updatedCount : Nat
  items : List DiffItem
deriving DecidableEq, Repr

/-- The `ComparisonReportData` record of `types.ts`. -/
structure ComparisonReportData where
  totalAdded : Nat
  totalRemoved : Nat
  totalUpdated : Nat
  vendors : List VendorComparison
deriving DecidableEq, Repr

/-- Milliseconds per day, `1000 * 60 * 60 * 24`. -/
def msPerDay : Int := 86400000

/-- `d.setHours(0,0,0,0)` on a `Date` holding epoch-ms `t`, in a time zone
`off` ms east of UTC: snap to the most recent local midnight. -/
def setMidnight (off t : Int) : Int := t - (t + off) % msPerDay

/-- JavaScript `Math.round(a / b)` for integral `a` and positive `b`
(`Math.round x = ⌊x + 1/2⌋`). -/
def jsRoundDiv (a b : Int) : Int := (2 * a + b) / (2 * b)

/-- JavaScript `Math.ceil(a / b)` for integral `a` and positive `b`. -/
def jsCeilDiv (a b : Int) : Int := -((-a) / b)

/-- Days-remaining core of the current parser (SettingsModal.tsx bundle,
lines 276-286): snap **both** "today" and the target date to local
midnight, subtract, divide by ms/day and `Math.round`. -/
def daysRemainingRound (off today target : Int) : Int :=
  jsRoundDiv (setMidnight off target - setMidnight off today) msPerDay

/-- Days-remaining core of the older duplicate parser
(src/unnamed/part_005, lines 49-54): snap only "today" to local midnight
and take `Math.ceil` of the raw millisecond difference. -/
def daysRemainingCeil (off today target : Int) : Int :=
  jsCeilDiv (target - setMidnight off today) msPerDay

/-- Index of the local calendar day containing epoch-ms `t` (time zone
offset `off`). -/
def localDay (off t : Int) : Int := (t + off) / msPerDay

/-- `excelDateToJSDate`: serial 25569 is 1970-01-01; integral serials make
the source's `Math.round` exact. -/
def excelDateToJSDate (serial : Int) : Int := (serial - 25569) * 86400000

/-- Host-dependent pieces of the JavaScript `Date` machinery, plus the
clock, abstracted so theorems quantify over every host behaviour. -/
structure JsEnv where
  nowMs : Int
  tzOffset : Int
  parseStrDate : String → Option Int
  mkLocalDate : Int → Int → Int → Int
  formatLocale : Int → String

/-- Decidable version of the `/^\d{1,2}\.\d{1,2}\.\d{4}$/` test used by
`formatDisplayDate`. -/
def looksLikeDDMMYYYY (s : String) : Bool :=
  match splitDot s.data with
  | [d, m, y] =>
      decide (1 ≤ d.length ∧ d.length ≤ 2) && d.all (fun c => c.isDigit) &&
      decide (1 ≤ m.length ∧ m.length ≤ 2) && m.all (fun c => c.isDigit) &&
      decide (y.length = 4) && y.all (fun c => c.isDigit)
  | _ => false

/-- `new Date(parseInt(y), parseInt(m) - 1, parseInt(d))` for the
`DD.MM.YYYY` branch; an unparseable component yields an invalid date. -/
def mkDateFromParts (env : JsEnv) (d m y : String) : Option Int :=
  match jsParseIntStr y, jsParseIntStr m, jsParseIntStr d with
  | some yi, some mi, some di => some (env.mkLocalDate yi (mi - 1) di)
  | _, _, _ => none

/-- Target-date extraction shared by both parser versions
(`typeof dateVal === 'number'` / `'string'` branches). -/
def parseTargetDate (env : JsEnv) : Cell → Option Int
  | .empty => none
  | .num serial => some (excelDateToJSDate serial)
  | .str s =>
      match splitDot s.data with
      | [d, m, y] => mkDateFromParts env (String.mk d) (String.mk m) (String.mk y)
      | _ => env.parseStrDate s

/-- `parseDateToDaysRemaining` of the current parser (SettingsModal.tsx
bundle, lines 257-288): falsy input gives no value; otherwise parse the
target date and apply the round-after-snapping-both computation. -/
def parseDateToDaysRemaining (env : JsEnv) (dateVal : Cell) : Option Int :=
  if !cellTruthy dateVal then none
  else
    match parseTargetDate env dateVal with
    | some t => some (daysRemainingRound env.tzOffset env.nowMs t)
    | none => none

/-- `parseDateToDaysRemaining` of the older duplicate parser
(src/unnamed/part_005, lines 30-56): same parsing, but ceiling of the
difference with only "today" snapped to midnight. -/
def parseDateToDaysRemainingOld (env : JsEnv) (dateVal : Cell) : Option Int :=
  if !cellTruthy dateVal then none
  else
    match parseTargetDate env dateVal with
    | some t => some (daysRemainingCeil env.tzOffset env.nowMs t)
    | none => none

/-- `formatDisplayDate` (SettingsModal.tsx bundle, lines 290-310). -/
def formatDisplayDate (env : JsEnv) (dateVal : Cell) : Option String :=
  if !cellTruthy dateVal then none
  else
    match dateVal with
    | .num serial => some (env.formatLocale (excelDateToJSDate serial))
    | .str s =>
        if looksLikeDDMMYYYY s then some s
        else
          match env.parseStrDate s with
          | some t => some (env.formatLocale t)
          | none => some s
    | .empty => none

/-- `recalculateStatus`'s per-item bucket (App.tsx lines 474-483), and the
same logic inlined in the parser with the literal threshold 10
(SettingsModal.tsx bundle lines 396-401): critical below zero, warning up
to the threshold, ok above it. -/
def classify (kalanGun threshold : Int) : Status :=
  if kalanGun < 0 then .critical
  else if kalanGun ≤ threshold then .warning
  else .ok

/-- `recalculateStatus` (App.tsx lines 474-484). -/
def recalculateStatus (items : List SapOrderItem) (threshold : Int) : List SapOrderItem :=
  items.map (fun item => { item with status := some (classify item.kalanGun threshold) })

/-- Column indices resolved by `findHeaderIndex`; `-1` is the not-found
sentinel returned by `findIndex` (SettingsModal.tsx bundle lines 352-368). -/
structure ColIdx where
  saBelgesi : Int
  sasKalemNo : Int
  kalanGun : Int
  teslimatTarihi : Int
  ilkTarih : Int
  saticiKodu : Int
  saticiAdi : Int
  malzeme : Int
  kisaMetin : Int
  sasMiktari : Int
  bakiyeMiktari : Int
  olcuBirimi : Int
  talepEden : Int
  olusturan : Int
  aciklama : Int
deriving DecidableEq, Repr

/-- `getVal` (SettingsModal.tsx bundle line 371):
`(index !== -1 && row[index] !== undefined) ? row[index] : null`.
Negative indices only ever arise as the `-1` sentinel; out-of-range and
hole cells are `undefined`, i.e. `Cell.empty`. -/
def cellAt (row : List Cell) (index : Int) : Cell :=
  if 0 ≤ index then row.getD index.toNat Cell.empty else Cell.empty

/-- JavaScript `String(c || dflt)` for a cell and a non-empty default. -/
def cellToStrOr (c : Cell) (dflt : String) : String :=
  match c with
  | .empty => dflt
  | .str s => if s = "" then dflt else s
  | .num n => if n = 0 then dflt else toString n

/-- The row-to-`SapOrderItem` mapping of the current parser
(`parseExcelData`, SettingsModal.tsx bundle lines 370-434). -/
def mapRow (env : JsEnv) (idx : ColIdx) (row : List Cell) : SapOrderItem :=
  let saBelgesi := cellToStr (cellAt row idx.saBelgesi)
  let sasKalemNo := cellToStr (cellAt row idx.sasKalemNo)
  let rawKalan := cellAt row idx.kalanGun
  let rawTeslimat := cellAt row idx.teslimatTarihi
  let rawIlkTarih := cellAt row idx.ilkTarih
  let kalanGun : Int :=
    if cellTruthy rawTeslimat then
      match parseDateToDaysRemaining env rawTeslimat with
      | some calculated => calculated
      | none => if kalanGuard rawKalan then jsParseIntCell rawKalan else 0
    else if kalanGuard rawKalan then jsParseIntCell rawKalan else 0
  let teslimatStr := formatDisplayDate env rawTeslimat
  let ilkTarihStr := formatDisplayDate env rawIlkTarih
  let status : Status :=
    if kalanGun < 0 then .critical else if kalanGun ≤ 10 then .warning else .ok
  let saticiKodu := cellToStr (cellAt row idx.saticiKodu)
  let saticiAdiRaw := cellToStr (cellAt row idx.saticiAdi)
  let saticiAdi :=
    if saticiAdiRaw ≠ "" then saticiAdiRaw
    else if saticiKodu ≠ "" && decide (5 < saticiKodu.length) && !jsIsNumeric saticiKodu then
      saticiKodu
    else if saticiKodu ≠ "" then "Tedarikçi (" ++ saticiKodu ++ ")"
    else "Bilinmeyen Tedarikçi"
  { saBelgesi := saBelgesi
    sasKalemNo := some sasKalemNo
    kalanGun := kalanGun
    saticiKodu := saticiKodu
    saticiAdi := saticiAdi
    malzeme := cellToStr (cellAt row idx.malzeme)
    kisaMetin := cellToStr (cellAt row idx.kisaMetin)
    sasMiktari := cellToNum (cellAt row idx.sasMiktari)
    malGirisMiktari := some 0
    bakiyeMiktari := cellToNum (cellAt row idx.bakiyeMiktari)
    olcuBirimi := cellToStrOr (cellAt row idx.olcuBirimi) "ADT"
    teslimatTarihi := teslimatStr
    ilkTarih := ilkTarihStr
    revizeTarih := none
    aciklama := some (cellToStr (cellAt row idx.aciklama))
    talepEden := some (cellToStr (cellAt row idx.talepEden))
    olusturan := some (cellToStr (cellAt row idx.olusturan))
    status := some status }

/-- The disqualifying-row filter (SettingsModal.tsx bundle lines 435-437,
identically src/unnamed/part_005 lines 218-221):
`item.saBelgesi && item.saBelgesi !== 'undefined' && item.saticiAdi !== 'Bilinmeyen Tedarikçi'`. -/
def rowFilter (item : SapOrderItem) : Bool :=
  strTruthy item.saBelgesi && item.saBelgesi ≠ "undefined" &&
    item.saticiAdi ≠ "Bilinmeyen Tedarikçi"

/-- `rows.map(...).filter(...)` — the mapped output of `parseExcelData`
for the order sheet. -/
def mapRows (env : JsEnv) (idx : ColIdx) (rows : List (List Cell)) : List SapOrderItem :=
  (rows.map (mapRow env idx)).filter rowFilter

/-- The days-remaining selection of the **older** duplicate parser
(src/unnamed/part_005 lines 156-168): the literal "KALAN GÜN" column wins
whenever it parses; the delivery date is only consulted otherwise. -/
def kalanGunOld (env : JsEnv) (rawKalan rawTeslimat : Cell) : Int :=
  if kalanGuard rawKalan then jsParseIntCell rawKalan
  else if cellTruthy rawTeslimat then
    match parseDateToDaysRemainingOld env rawTeslimat with
    | some calculated => calculated
    | none => 0
  else 0

/-- The match condition of `handleUpdateItem` / `handleUpdateNote`
(App.tsx line 618): `item.saBelgesi === saBelgesi && (item.sasKalemNo === sasKalemNo || !sasKalemNo)`. -/
def updateMatches (saBelgesi sasKalemNo : String) (item : SapOrderItem) : Bool :=
  item.saBelgesi == saBelgesi &&
    ((match item.sasKalemNo with
      | some s => s == sasKalemNo
      | none => false) || sasKalemNo == "")

/-- Per-item body of the `data.map` in `handleUpdateItem`
(App.tsx lines 617-622). -/
def updateOne (saBelgesi sasKalemNo newDate : String) (item : SapOrderItem) : SapOrderItem :=
  if updateMatches saBelgesi sasKalemNo item then { item with revizeTarih := some newDate }
  else item

/-- The state transformation of `handleUpdateItem` (App.tsx lines
615-623); the AI batch path (`finalizeUpdates` in EmailGenerator.tsx)
applies confirmed updates through this same function. -/
def handleUpdateItemData (data : List SapOrderItem) (saBelgesi sasKalemNo newDate : String) :
    List SapOrderItem :=
  data.map (updateOne saBelgesi sasKalemNo newDate)

/-- `getItemKey` (SettingsModal.tsx bundle line 127):
`` `${item.saBelgesi}_${item.sasKalemNo || item.malzeme}` ``. -/
def getItemKey (item : SapOrderItem) : String :=
  item.saBelgesi ++ "_" ++
    (match item.sasKalemNo with
     | some s => if s ≠ "" then s else item.malzeme
     | none => item.malzeme)

/-- The effective date used by the diff and by displays:
`item.revizeTarih || item.teslimatTarihi` (SettingsModal.tsx bundle lines
165-166). -/
def effectiveDate (item : SapOrderItem) : Option String :=
  jsOrStr item.revizeTarih item.teslimatTarihi

/-- A JavaScript `Map` with string keys / plain string-keyed object:
insertion-ordered association list with unique keys. -/
abbrev JsMap (α : Type) := List (String × α)

/-- `Map.prototype.set` / object property write: replace the existing
entry in place, else append. -/
def JsMap.set {α : Type} : JsMap α → String → α → JsMap α
  | [], k, v => [(k, v)]
  | p :: rest, k, v => if p.1 = k then (k, v) :: rest else p :: JsMap.set rest k v

/-- `Map.prototype.get` / object property read. -/
def JsMap.get {α : Type} : JsMap α → String → Option α
  | [], _ => none
  | p :: rest, k => if p.1 = k then some p.2 else JsMap.get rest k

/-- `Map.prototype.has`. -/
def JsMap.has {α : Type} (m : JsMap α) (k : String) : Bool := (m.get k).isSome

/-- The key→item maps built at the top of `compareDatasets`
(SettingsModal.tsx bundle lines 130-134). -/
def buildItemMap (data : List SapOrderItem) : JsMap SapOrderItem :=
  data.foldl (fun m item => m.set (getItemKey item) item) []

/-- The zero-count vendor bucket `getVendorEntry` creates on first sight
of a supplier code (SettingsModal.tsx bundle lines 140-149). -/
def freshVendor (item : SapOrderItem) : VendorComparison :=
  { vendorId := item.saticiKodu
    vendorName := item.saticiAdi
    addedCount := 0
    removedCount := 0
    updatedCount := 0
    items := [] }

/-- Entry-creating half of `getVendorEntry`. -/
def ensureVendor (m : JsMap VendorComparison) (item : SapOrderItem) : JsMap VendorComparison :=
  match m.get item.saticiKodu with
  | some _ => m
  | none => m.set item.saticiKodu (freshVendor item)

/-- In-place mutation of the (unique) bucket of a vendor id, as done via
the reference returned by `getVendorEntry`. -/
def modifyVendor : JsMap VendorComparison → String → (VendorComparison → VendorComparison) →
    JsMap VendorComparison
  | [], _, _ => []
  | p :: rest, vId, f =>
      if p.1 = vId then (p.1, f p.2) :: rest else p :: modifyVendor rest vId f

/-- `vendor.addedCount++; vendor.items.push({type: 'added', item: newItem})`. -/
def pushAdded (newItem : SapOrderItem) (v : VendorComparison) : VendorComparison :=
  { v with addedCount := v.addedCount + 1
           items := v.items ++ [{ type := .added, item := newItem }] }

/-- `vendor.updatedCount++; vendor.items.push({type: 'updated', ...})`. -/
def pushUpdated (newItem : SapOrderItem) (oldDate newDate : Option String)
    (v : VendorComparison) : VendorComparison :=
  { v with updatedCount := v.updatedCount + 1
           items := v.items ++ [{ type := .updated, item := newItem,
                                  oldDate := oldDate, newDate := newDate }] }

/-- `vendor.removedCount++; vendor.items.push({type: 'removed', item: oldItem})`. -/
def pushRemoved (oldItem : SapOrderItem) (v : VendorComparison) : VendorComparison :=
  { v with removedCount := v.removedCount + 1
           items := v.items ++ [{ type := .removed, item := oldItem }] }

/-- Pass 1 of `compareDatasets` ("Check for Added and Updated",
SettingsModal.tsx bundle lines 153-178), one `newData.forEach` step. -/
def compareStep1 (oldMap : JsMap SapOrderItem) (acc : JsMap VendorComparison)
    (newItem : SapOrderItem) : JsMap VendorComparison :=
  let acc := ensureVendor acc newItem
  match oldMap.get (getItemKey newItem) with
  | none => modifyVendor acc newItem.saticiKodu (pushAdded newItem)
  | some oldItem =>
      let oldDate := effectiveDate oldItem
      let newDate := effectiveDate newItem
      if oldDate ≠ newDate then
        modifyVendor acc newItem.saticiKodu (pushUpdated newItem oldDate newDate)
      else acc

/-- Pass 2 of `compareDatasets` ("Check for Removed", SettingsModal.tsx
bundle lines 180-188), one `oldData.forEach` step. -/
def compareStep2 (newMap : JsMap SapOrderItem) (acc : JsMap VendorComparison)
    (oldItem : SapOrderItem) : JsMap VendorComparison :=
  if newMap.has (getItemKey oldItem) then acc
  else modifyVendor (ensureVendor acc oldItem) oldItem.saticiKodu (pushRemoved oldItem)

/-- The fully accumulated `vendorDiffs` record of `compareDatasets`. -/
def compareVendorMap (oldData newData : List SapOrderItem) : JsMap VendorComparison :=
  oldData.foldl (compareStep2 (buildItemMap newData))
    (newData.foldl (compareStep1 (buildItemMap oldData)) [])

/-- The summarize filter (SettingsModal.tsx bundle line 192): keep only
vendors with at least one change. -/
def vendorNonEmpty (v : VendorComparison) : Bool :=
  decide (0 < v.addedCount) || decide (0 < v.removedCount) || decide (0 < v.updatedCount)

/-- Stable insertion of `x` into `l`: `x` goes in front of the first
element it may precede. -/
def insertLe {α : Type} (le : α → α → Bool) (x : α) : List α → List α
  | [] => [x]
  | y :: ys => if le x y then x :: y :: ys else y :: insertLe le x ys

/-- A stable sort (insertion sort), modelling the spec-stable
`Array.prototype.sort`; written structurally so that reports evaluate
inside the kernel. -/
def stableSortBy {α : Type} (le : α → α → Bool) : List α → List α
  | [] => []
  | x :: xs => insertLe le x (stableSortBy le xs)

/-- `Object.values(vendorDiffs).filter(...).sort(...)` (SettingsModal.tsx
bundle lines 191-193): descending by added+updated, stably. -/
def compareVendors (oldData newData : List SapOrderItem) : List VendorComparison :=
  stableSortBy
    (fun a b => decide (b.addedCount + b.updatedCount ≤ a.addedCount + a.updatedCount))
    (((compareVendorMap oldData newData).map Prod.snd).filter vendorNonEmpty)

/-- The three `reduce` totals (SettingsModal.tsx bundle lines 195-197). -/
def sumBy (f : VendorComparison → Nat) (vs : List VendorComparison) : Nat :=
  vs.foldl (fun sum v => sum + f v) 0

/-- `compareDatasets` (SettingsModal.tsx bundle lines 129-205). -/
def compareDatasets (oldData newData : List SapOrderItem) : ComparisonReportData :=
  let vendors := compareVendors oldData newData
  { totalAdded := sumBy (fun v => v.addedCount) vendors
    totalRemoved := sumBy (fun v => v.removedCount) vendors
    totalUpdated := sumBy (fun v => v.updatedCount) vendors
    vendors := vendors }

/-- All diff items of a report, across its vendor buckets. -/
def reportItems (r : ComparisonReportData) : List DiffItem :=
  (r.vendors.map (fun v => v.items)).flatten

/-- All diff items held in a `vendorDiffs` accumulator. -/
def mapDiffItems (m : JsMap VendorComparison) : List DiffItem :=
  (m.map (fun p => p.2.items)).flatten

/-- Specification-side classification of one new-snapshot line: the diff
item (if any) pass 1 emits for it. -/
def classifyNew (oldMap : JsMap SapOrderItem) (newItem : SapOrderItem) : List DiffItem :=
  match oldMap.get (getItemKey newItem) with
  | none => [{ type := .added, item := newItem }]
  | some oldItem =>
      if effectiveDate oldItem ≠ effectiveDate newItem then
        [{ type := .updated, item := newItem, oldDate := effectiveDate oldItem,
           newDate := effectiveDate newItem }]
      else []

/-- Specification-side classification of one old-snapshot line: the diff
item (if any) pass 2 emits for it. -/
def classifyOld (newMap : JsMap SapOrderItem) (oldItem : SapOrderItem) : List DiffItem :=
  if newMap.has (getItemKey oldItem) then [] else [{ type := .removed, item := oldItem }]

/-- Bucket bookkeeping invariant: each counter counts exactly the diff
items of its kind held by the bucket, and every held item is counted. -/
def VendorWF (v : VendorComparison) : Prop :=
  v.addedCount = (v.items.filter (fun d => d.type == DiffType.added)).length ∧
  v.removedCount = (v.items.filter (fun d => d.type == DiffType.removed)).length ∧
  v.updatedCount = (v.items.filter (fun d => d.type == DiffType.updated)).length ∧
  v.items.length = v.addedCount + v.removedCount + v.updatedCount

/-- All buckets of a `vendorDiffs` accumulator satisfy `VendorWF`. -/
def MapWF (m : JsMap VendorComparison) : Prop := ∀ p ∈ m, VendorWF p.2

/-- A concrete Order Line used by the date-update theorems: days-remaining
5 was computed at load time from the promised date. -/
def itemA : SapOrderItem :=
  { saBelgesi := "450001", kalanGun := 5, saticiKodu := "V100", saticiAdi := "Vendor A",
    malzeme := "M1", kisaMetin := "part", sasMiktari := some 10, malGirisMiktari := some 0,
    bakiyeMiktari := some 10, olcuBirimi := "ADT", teslimatTarihi := some "10.05.2025",
    ilkTarih := none, sasKalemNo := some "10", revizeTarih := none, aciklama := some "",
    talepEden := some "", olusturan := some "", status := some .ok }

/-- A concrete host/clock environment used by witnesses: epoch clock, zero
offset, a generic date parser that fails, and a year/month/day
constructor that lands on the epoch. -/
def envC : JsEnv :=
  { nowMs := 0, tzOffset := 0, parseStrDate := fun _ => none,
    mkLocalDate := fun _ _ _ => 0, formatLocale := fun _ => "01.01.1970" }

/-- An Order Line with a distinct identity key, used to witness the
self-diff theorem. -/
def itemD : SapOrderItem :=
  { saBelgesi := "450007", kalanGun := 12, saticiKodu := "V200", saticiAdi := "Vendor B",
    malzeme := "M7", kisaMetin := "bolt", sasMiktari := some 4, malGirisMiktari := some 0,
    bakiyeMiktari := some 4, olcuBirimi := "ADT", teslimatTarihi := some "01.06.2025",
    ilkTarih := none, sasKalemNo := some "20", revizeTarih := none, aciklama := some "",
    talepEden := some "", olusturan := some "", status := some .ok }

/-- First of two Order Lines sharing the identity key `450001_10` but
carrying different promised dates. -/
def itemB1 : SapOrderItem :=
  { saBelgesi := "450001", kalanGun := 5, saticiKodu := "V100", saticiAdi := "Vendor A",
    malzeme := "M1", kisaMetin := "", sasMiktari := some 1, malGirisMiktari := some 0,
    bakiyeMiktari := some 1, olcuBirimi := "ADT", teslimatTarihi := some "10.05.2025",
    ilkTarih := none, sasKalemNo := some "10", revizeTarih := none, aciklama := some "",
    talepEden := some "", olusturan := some "", status := some .ok }

/-- Second line with the same identity key as `itemB1` but promised date
`15.05.2025`. -/
def itemB2 : SapOrderItem := { itemB1 with teslimatTarihi := some "15.05.2025" }

/-- An Order Line present only in the new snapshot, used to witness the
per-line diff classification. -/
def itemE : SapOrderItem :=
  { saBelgesi := "450009", kalanGun := 3, saticiKodu := "V300", saticiAdi := "Vendor C",
    malzeme := "M9", kisaMetin := "pipe", sasMiktari := some 2, malGirisMiktari := some 0,
    bakiyeMiktari := some 2, olcuBirimi := "ADT", teslimatTarihi := some "20.05.2025",
    ilkTarih := none, sasKalemNo := some "30", revizeTarih := none, aciklama := some "",
    talepEden := some "", olusturan := some "", status := some .warning }

/-- Identity keys of the diff items a report classifies as added. -/
def addedKeys (r : ComparisonReportData) : List String :=
  ((reportItems r).filter (fun d => d.type == DiffType.added)).map
    (fun d => getItemKey d.item)

/-- Identity keys of the diff items a report classifies as removed. -/
def removedKeys (r : ComparisonReportData) : List String :=
  ((reportItems r).filter (fun d => d.type == DiffType.removed)).map
    (fun d => getItemKey d.item)

/-- Column layout with all optional columns beyond the C5 witness row's
shape unresolved. -/
def idxC5 : ColIdx :=
  { saBelgesi := 0, sasKalemNo := 1, kalanGun := 2, teslimatTarihi := 3, ilkTarih := -1,
    saticiKodu := 4, saticiAdi := 5, malzeme := 6, kisaMetin := -1, sasMiktari := -1,
    bakiyeMiktari := -1, olcuBirimi := -1, talepEden := -1, olusturan := -1, aciklama := -1 }

/-- A well-formed raw row (order number, item, days, no date, vendor
code/name, material) surviving the filter. -/
def rowC5 : List Cell :=
  [Cell.str "450001", Cell.str "10", Cell.num 7, Cell.empty, Cell.str "V100",
   Cell.str "ACME Metal", Cell.str "M1"]

/-- Column layout for the date-precedence witness. -/
def idxC6 : ColIdx :=
  { saBelgesi := 0, sasKalemNo := 1, kalanGun := 2, teslimatTarihi := 3, ilkTarih := -1,
    saticiKodu := 4, saticiAdi := 5, malzeme := 6, kisaMetin := -1, sasMiktari := -1,
    bakiyeMiktari := -1, olcuBirimi := -1, talepEden := -1, olusturan := -1, aciklama := -1 }

/-- A raw row carrying **both** a literal days-remaining of 99 and a
parseable delivery date (Excel serial 25570, one day after the `envC`
epoch clock). -/
def rowC6 : List Cell :=
  [Cell.str "450001", Cell.str "10", Cell.num 99, Cell.num 25570, Cell.str "V100",
   Cell.str "ACME Metal", Cell.str "M1"]

/-- The all-columns-missing layout: every `findHeaderIndex` call returned
the -1 sentinel. -/
def idxNone : ColIdx :=
  { saBelgesi := -1, sasKalemNo := -1, kalanGun := -1, teslimatTarihi := -1, ilkTarih := -1,
    saticiKodu := -1, saticiAdi := -1, malzeme := -1, kisaMetin := -1, sasMiktari := -1,
    bakiyeMiktari := -1, olcuBirimi := -1, talepEden := -1, olusturan := -1, aciklama := -1 }

theorem JsMap.get_set_self {α : Type} (m : JsMap α) (k : String) (v : α) :
    (m.set k v).get k = some v := by
  induction m with
  | nil => simp [JsMap.set, JsMap.get]
  | cons p rest ih =>
      by_cases h : p.1 = k
      · simp [JsMap.set, JsMap.get, h]
      · simp [JsMap.set, JsMap.get, h, ih]

theorem JsMap.get_set_ne {α : Type} (m : JsMap α) (k kq : String) (v : α) (h : kq ≠ k) :
    (m.set k v).get kq = m.get kq := by
  induction m with
  | nil => simp [JsMap.set, JsMap.get, Ne.symm h]
  | cons p rest ih =>
      by_cases hp : p.1 = k
      · subst hp
        simp [JsMap.set, JsMap.get, h, Ne.symm h]
      · by_cases hq : p.1 = kq
        · simp [JsMap.set, JsMap.get, hp, hq, h]
        · simp [JsMap.set, JsMap.get, hp, hq, ih]

theorem JsMap.set_of_get_none {α : Type} (m : JsMap α) (k : String) (v : α)
    (h : m.get k = none) : m.set k v = m ++ [(k, v)] := by
  induction m with
  | nil => simp [JsMap.set]
  | cons p rest ih =>
      by_cases hp : p.1 = k
      · simp [JsMap.get, hp] at h
      · simp [JsMap.get, hp] at h
        simp [JsMap.set, hp, ih h]

theorem foldl_set_get (l : List SapOrderItem) (m : JsMap SapOrderItem) (k : String) :
    (l.foldl (fun m item => m.set (getItemKey item) item) m).get k =
      match l.reverse.find? (fun item => getItemKey item == k) with
      | some item => some item
      | none => m.get k := by
  induction l generalizing m with
  | nil => simp
  | cons i l ih =>
      rw [List.foldl_cons, ih, List.reverse_cons, List.find?_append]
      cases hfind : l.reverse.find? (fun item => getItemKey item == k) with
      | some j => simp [Option.or]
      | none =>
          by_cases hk : getItemKey i = k
          · simp [Option.or, List.find?, hk, JsMap.get_set_self]
          · have hbeq : (getItemKey i == k) = false := by simp [hk]
            simp [Option.or, List.find?, hbeq, JsMap.get_set_ne _ _ _ _ (Ne.symm hk)]

theorem buildItemMap_get_eq (data : List SapOrderItem) (k : String) :
    (buildItemMap data).get k =
      match data.reverse.find? (fun item => getItemKey item == k) with
      | some item => some item
      | none => none := by
  rw [buildItemMap, foldl_set_get]
  cases data.reverse.find? (fun item => getItemKey item == k) <;> simp [JsMap.get]

theorem buildItemMap_get_mem (data : List SapOrderItem) (k : String) (x : SapOrderItem)
    (h : (buildItemMap data).get k = some x) : x ∈ data ∧ getItemKey x = k := by
  rw [buildItemMap_get_eq] at h
  cases hfind : data.reverse.find? (fun item => getItemKey item == k) with
  | none => rw [hfind] at h; simp at h
  | some j =>
      rw [hfind] at h
      cases h
      have hmem := List.mem_of_find?_eq_some hfind
      have hkey := List.find?_some hfind
      simp at hkey
      exact ⟨List.mem_reverse.mp hmem, hkey⟩

theorem buildItemMap_get_isSome (data : List SapOrderItem) (l : SapOrderItem)
    (hl : l ∈ data) : ((buildItemMap data).get (getItemKey l)).isSome := by
  rw [buildItemMap_get_eq]
  have hsome : (data.reverse.find? (fun item => getItemKey item == getItemKey l)).isSome := by
    rw [List.find?_isSome]
    exact ⟨l, List.mem_reverse.mpr hl, by simp⟩
  cases hfind : data.reverse.find? (fun item => getItemKey item == getItemKey l) with
  | none => rw [hfind] at hsome; simp at hsome
  | some j => simp

theorem buildItemMap_get_self (data : List SapOrderItem)
    (hnd : (data.map getItemKey).Nodup) (l : SapOrderItem) (hl : l ∈ data) :
    (buildItemMap data).get (getItemKey l) = some l := by
  have hpw : data.Pairwise (fun a b => getItemKey a ≠ getItemKey b) := by
    rw [List.Nodup, List.pairwise_map] at hnd
    exact hnd
  have hsymm : Symmetric (fun a b : SapOrderItem => getItemKey a ≠ getItemKey b) :=
    fun a b h => Ne.symm h
  cases hget : (buildItemMap data).get (getItemKey l) with
  | none =>
      have := buildItemMap_get_isSome data l hl
      rw [hget] at this
      simp at this
  | some x =>
      obtain ⟨hxmem, hxkey⟩ := buildItemMap_get_mem data (getItemKey l) x hget
      by_cases hx : x = l
      · rw [hx]
      · exact absurd hxkey (hpw.forall hsymm hxmem hl hx)

theorem mapDiffItems_set_fresh (m : JsMap VendorComparison) (item : SapOrderItem)
    (h : m.get item.saticiKodu = none) :
    mapDiffItems (m.set item.saticiKodu (freshVendor item)) = mapDiffItems m := by
  rw [JsMap.set_of_get_none m _ _ h]
  simp [mapDiffItems, freshVendor]

theorem mapDiffItems_ensure (m : JsMap VendorComparison) (item : SapOrderItem) :
    mapDiffItems (ensureVendor m item) = mapDiffItems m := by
  unfold ensureVendor
  cases h : m.get item.saticiKodu with
  | some v => rfl
  | none => exact mapDiffItems_set_fresh m item h

theorem ensureVendor_get_isSome (m : JsMap VendorComparison) (item : SapOrderItem) :
    ((ensureVendor m item).get item.saticiKodu).isSome := by
  unfold ensureVendor
  cases h : m.get item.saticiKodu with
  | some v => simp [h]
  | none => simp [JsMap.get_set_self]

theorem mapDiffItems_modify (m : JsMap VendorComparison) (vId : String)
    (f : VendorComparison → VendorComparison) (L : List DiffItem)
    (hf : ∀ v, (f v).items = v.items ++ L) (hx : (m.get vId).isSome) :
    (mapDiffItems (modifyVendor m vId f)).Perm (mapDiffItems m ++ L) := by
  induction m with
  | nil => simp [JsMap.get] at hx
  | cons p rest ih =>
      by_cases hp : p.1 = vId
      · simp only [modifyVendor, hp, if_pos, mapDiffItems, List.map_cons, List.flatten_cons, hf]
        rw [List.append_assoc, List.append_assoc]
        exact List.Perm.append_left p.2.items (List.perm_append_comm)
      · have hx2 : (JsMap.get rest vId).isSome := by
          simp only [JsMap.get, hp, if_neg, ite_false] at hx
          simpa using hx
        simp only [modifyVendor, hp, if_neg, ite_false, mapDiffItems, List.map_cons,
          List.flatten_cons]
        rw [List.append_assoc]
        exact List.Perm.append_left p.2.items (ih hx2)

theorem mapDiffItems_compareStep1 (oldMap : JsMap SapOrderItem)
    (acc : JsMap VendorComparison) (newItem : SapOrderItem) :
    (mapDiffItems (compareStep1 oldMap acc newItem)).Perm
      (mapDiffItems acc ++ classifyNew oldMap newItem) := by
  unfold compareStep1 classifyNew
  cases hget : oldMap.get (getItemKey newItem) with
  | none =>
      have hperm := mapDiffItems_modify (ensureVendor acc newItem) newItem.saticiKodu
        (pushAdded newItem) [{ type := .added, item := newItem }]
        (fun v => rfl) (ensureVendor_get_isSome acc newItem)
      rw [mapDiffItems_ensure] at hperm
      exact hperm
  | some oldItem =>
      by_cases hdate : effectiveDate oldItem = effectiveDate newItem
      · simp [hdate, mapDiffItems_ensure]
      · simp only [ne_eq, hdate, not_false_eq_true, ite_true]
        have hperm := mapDiffItems_modify (ensureVendor acc newItem) newItem.saticiKodu
          (pushUpdated newItem (effectiveDate oldItem) (effectiveDate newItem))
          [{ type := .updated, item := newItem, oldDate := effectiveDate oldItem,
             newDate := effectiveDate newItem }]
          (fun v => rfl) (ensureVendor_get_isSome acc newItem)
        rw [mapDiffItems_ensure] at hperm
        exact hperm

theorem mapDiffItems_compareStep2 (newMap : JsMap SapOrderItem)
    (acc : JsMap VendorComparison) (oldItem : SapOrderItem) :
    (mapDiffItems (compareStep2 newMap acc oldItem)).Perm
      (mapDiffItems acc ++ classifyOld newMap oldItem) := by
  unfold compareStep2 classifyOld
  by_cases hhas : newMap.has (getItemKey oldItem)
  · simp [hhas]
  · simp only [hhas, if_neg, ite_false, Bool.false_eq_true]
    have hperm := mapDiffItems_modify (ensureVendor acc oldItem) oldItem.saticiKodu
      (pushRemoved oldItem) [{ type := .removed, item := oldItem }]
      (fun v => rfl) (ensureVendor_get_isSome acc oldItem)
    rw [mapDiffItems_ensure] at hperm
    simpa [hhas] using hperm

theorem mapDiffItems_foldl1 (oldMap : JsMap SapOrderItem) (l : List SapOrderItem)
    (m : JsMap VendorComparison) :
    (mapDiffItems (l.foldl (compareStep1 oldMap) m)).Perm
      (mapDiffItems m ++ (l.map (classifyNew oldMap)).flatten) := by
  induction l generalizing m with
  | nil => simp
  | cons i l ih =>
      rw [List.foldl_cons]
      refine (ih (compareStep1 oldMap m i)).trans ?_
      rw [List.map_cons, List.flatten_cons, ← List.append_assoc]
      exact (mapDiffItems_compareStep1 oldMap m i).append_right _

theorem mapDiffItems_foldl2 (newMap : JsMap SapOrderItem) (l : List SapOrderItem)
    (m : JsMap VendorComparison) :
    (mapDiffItems (l.foldl (compareStep2 newMap) m)).Perm
      (mapDiffItems m ++ (l.map (classifyOld newMap)).flatten) := by
  induction l generalizing m with
  | nil => simp
  | cons i l ih =>
      rw [List.foldl_cons]
      refine (ih (compareStep2 newMap m i)).trans ?_
      rw [List.map_cons, List.flatten_cons, ← List.append_assoc]
      exact (mapDiffItems_compareStep2 newMap m i).append_right _

theorem mapDiffItems_compareVendorMap (oldData newData : List SapOrderItem) :
    (mapDiffItems (compareVendorMap oldData newData)).Perm
      ((newData.map (classifyNew (buildItemMap oldData))).flatten ++
        (oldData.map (classifyOld (buildItemMap newData))).flatten) := by
  unfold compareVendorMap
  refine (mapDiffItems_foldl2 (buildItemMap newData) oldData _).trans ?_
  refine List.Perm.append_right _ ?_
  have h := mapDiffItems_foldl1 (buildItemMap oldData) newData []
  simpa [mapDiffItems] using h

theorem freshVendor_wf (item : SapOrderItem) : VendorWF (freshVendor item) := by
  simp [VendorWF, freshVendor]

theorem pushAdded_wf (i : SapOrderItem) (v : VendorComparison) (h : VendorWF v) :
    VendorWF (pushAdded i v) := by
  obtain ⟨h1, h2, h3, h4⟩ := h
  refine ⟨?_, ?_, ?_, ?_⟩ <;>
    simp [pushAdded, List.filter_append, ← h1, ← h2, ← h3, h4] <;> omega

theorem pushUpdated_wf (i : SapOrderItem) (od nd : Option String) (v : VendorComparison)
    (h : VendorWF v) : VendorWF (pushUpdated i od nd v) := by
  obtain ⟨h1, h2, h3, h4⟩ := h
  refine ⟨?_, ?_, ?_, ?_⟩ <;>
    simp [pushUpdated, List.filter_append, ← h1, ← h2, ← h3, h4] <;> omega

theorem pushRemoved_wf (i : SapOrderItem) (v : VendorComparison) (h : VendorWF v) :
    VendorWF (pushRemoved i v) := by
  obtain ⟨h1, h2, h3, h4⟩ := h
  refine ⟨?_, ?_, ?_, ?_⟩ <;>
    simp [pushRemoved, List.filter_append, ← h1, ← h2, ← h3, h4] <;> omega

theorem mem_of_mem_set {α : Type} (m : JsMap α) (k : String) (v : α) (q : String × α)
    (h : q ∈ m.set k v) : q ∈ m ∨ q = (k, v) := by
  induction m with
  | nil => simp [JsMap.set] at h; simp [h]
  | cons p rest ih =>
      by_cases hp : p.1 = k
      · simp only [JsMap.set, hp, ite_true] at h
        rcases List.mem_cons.mp h with h | h
        · right; exact h
        · left; exact List.mem_cons_of_mem p h
      · simp only [JsMap.set, hp, ite_false] at h
        rcases List.mem_cons.mp h with h | h
        · left; exact h ▸ List.mem_cons_self p rest
        · rcases ih h with h | h
          · left; exact List.mem_cons_of_mem p h
          · right; exact h

theorem mem_of_mem_modify (m : JsMap VendorComparison) (vId : String)
    (f : VendorComparison → VendorComparison) (q : String × VendorComparison)
    (h : q ∈ modifyVendor m vId f) : q ∈ m ∨ ∃ p, p ∈ m ∧ q = (p.1, f p.2) := by
  induction m with
  | nil => simp [modifyVendor] at h
  | cons p rest ih =>
      by_cases hp : p.1 = vId
      · simp only [modifyVendor, hp, ite_true] at h
        rcases List.mem_cons.mp h with h | h
        · right; exact ⟨p, List.mem_cons_self p rest, by rw [h, hp]⟩
        · left; exact List.mem_cons_of_mem p h
      · simp only [modifyVendor, hp, ite_false] at h
        rcases List.mem_cons.mp h with h | h
        · left; exact h ▸ List.mem_cons_self p rest
        · rcases ih h with h | ⟨r, hr, hq⟩
          · left; exact List.mem_cons_of_mem p h
          · right; exact ⟨r, List.mem_cons_of_mem p hr, hq⟩

theorem MapWF_ensure (m : JsMap VendorComparison) (item : SapOrderItem) (h : MapWF m) :
    MapWF (ensureVendor m item) := by
  unfold ensureVendor
  cases hget : m.get item.saticiKodu with
  | some v => exact h
  | none =>
      intro q hq
      rcases mem_of_mem_set _ _ _ _ hq with hq | hq
      · exact h q hq
      · rw [hq]; exact freshVendor_wf item

theorem MapWF_modify (m : JsMap VendorComparison) (vId : String)
    (f : VendorComparison → VendorComparison) (h : MapWF m)
    (hf : ∀ v, VendorWF v → VendorWF (f v)) : MapWF (modifyVendor m vId f) := by
  intro q hq
  rcases mem_of_mem_modify _ _ _ _ hq with hq | ⟨p, hp, hq⟩
  · exact h q hq
  · rw [hq]; exact hf p.2 (h p hp)

theorem MapWF_step1 (oldMap : JsMap SapOrderItem) (m : JsMap VendorComparison)
    (i : SapOrderItem) (h : MapWF m) : MapWF (compareStep1 oldMap m i) := by
  unfold compareStep1
  cases oldMap.get (getItemKey i) with
  | none => exact MapWF_modify _ _ _ (MapWF_ensure m i h) (pushAdded_wf i)
  | some oldItem =>
      dsimp only
      by_cases hd : effectiveDate oldItem ≠ effectiveDate i
      · rw [if_pos hd]
        exact MapWF_modify _ _ _ (MapWF_ensure m i h) (pushUpdated_wf i _ _)
      · rw [if_neg hd]
        exact MapWF_ensure m i h

theorem MapWF_step2 (newMap : JsMap SapOrderItem) (m : JsMap VendorComparison)
    (i : SapOrderItem) (h : MapWF m) : MapWF (compareStep2 newMap m i) := by
  unfold compareStep2
  by_cases hhas : newMap.has (getItemKey i)
  · simp only [hhas, ite_true]; exact h
  · simp only [hhas, ite_false, Bool.false_eq_true]
    exact MapWF_modify _ _ _ (MapWF_ensure m i h) (pushRemoved_wf i)

theorem MapWF_foldl1 (oldMap : JsMap SapOrderItem) (l : List SapOrderItem)
    (m : JsMap VendorComparison) (h : MapWF m) :
    MapWF (l.foldl (compareStep1 oldMap) m) := by
  induction l generalizing m with
  | nil => exact h
  | cons i l ih => exact ih _ (MapWF_step1 oldMap m i h)

theorem MapWF_foldl2 (newMap : JsMap SapOrderItem) (l : List SapOrderItem)
    (m : JsMap VendorComparison) (h : MapWF m) :
    MapWF (l.foldl (compareStep2 newMap) m) := by
  induction l generalizing m with
  | nil => exact h
  | cons i l ih => exact ih _ (MapWF_step2 newMap m i h)

theorem MapWF_compareVendorMap (oldData newData : List SapOrderItem) :
    MapWF (compareVendorMap oldData newData) := by
  unfold compareVendorMap
  exact MapWF_foldl2 _ _ _ (MapWF_foldl1 _ _ _ (by intro q hq; simp at hq))

theorem vendor_items_nil_of_empty (v : VendorComparison) (hwf : VendorWF v)
    (hne : vendorNonEmpty v = false) : v.items = [] := by
  obtain ⟨h1, h2, h3, h4⟩ := hwf
  simp only [vendorNonEmpty, Bool.or_eq_false_iff, decide_eq_false_iff_not, not_lt,
    Nat.le_zero] at hne
  obtain ⟨⟨ha, hr⟩, hu⟩ := hne
  have : v.items.length = 0 := by omega
  exact List.eq_nil_of_length_eq_zero this

theorem flatten_filter_nonEmpty (vs : List VendorComparison)
    (h : ∀ v ∈ vs, vendorNonEmpty v = false → v.items = []) :
    ((vs.filter vendorNonEmpty).map (fun v => v.items)).flatten =
      (vs.map (fun v => v.items)).flatten := by
  induction vs with
  | nil => rfl
  | cons v vs ih =>
      have hrest : ∀ w ∈ vs, vendorNonEmpty w = false → w.items = [] :=
        fun w hw => h w (List.mem_cons_of_mem v hw)
      cases hv : vendorNonEmpty v with
      | true => simp [List.filter_cons, hv, ih hrest]
      | false => simp [List.filter_cons, hv, ih hrest, h v (List.mem_cons_self v vs) hv]

theorem insertLe_perm {α : Type} (le : α → α → Bool) (x : α) (l : List α) :
    (insertLe le x l).Perm (x :: l) := by
  induction l with
  | nil => simp [insertLe]
  | cons y ys ih =>
      unfold insertLe
      by_cases h : le x y = true
      · rw [if_pos h]
      · rw [if_neg h]
        exact (ih.cons y).trans (List.Perm.swap x y ys)

theorem stableSortBy_perm {α : Type} (le : α → α → Bool) (l : List α) :
    (stableSortBy le l).Perm l := by
  induction l with
  | nil => simp [stableSortBy]
  | cons x xs ih =>
      unfold stableSortBy
      exact (insertLe_perm le x (stableSortBy le xs)).trans (ih.cons x)

theorem compareDatasets_vendors (oldData newData : List SapOrderItem) :
    (compareDatasets oldData newData).vendors = compareVendors oldData newData := rfl

theorem reportItems_perm (oldData newData : List SapOrderItem) :
    (reportItems (compareDatasets oldData newData)).Perm
      ((newData.map (classifyNew (buildItemMap oldData))).flatten ++
        (oldData.map (classifyOld (buildItemMap newData))).flatten) := by
  have hwf := MapWF_compareVendorMap oldData newData
  have hsort : (compareVendors oldData newData).Perm
      (((compareVendorMap oldData newData).map Prod.snd).filter vendorNonEmpty) :=
    stableSortBy_perm _ _
  have hstep1 : (reportItems (compareDatasets oldData newData)).Perm
      (((((compareVendorMap oldData newData).map Prod.snd).filter vendorNonEmpty).map
        (fun v => v.items)).flatten) := by
    unfold reportItems
    rw [compareDatasets_vendors]
    exact (hsort.map (fun v => v.items)).flatten
  have hdrop : (((((compareVendorMap oldData newData).map Prod.snd).filter
      vendorNonEmpty).map (fun v => v.items)).flatten) =
      mapDiffItems (compareVendorMap oldData newData) := by
    rw [flatten_filter_nonEmpty]
    · rw [mapDiffItems, List.map_map]
      rfl
    · intro v hv hne
      rcases List.mem_map.mp hv with ⟨p, hp, hpv⟩
      exact vendor_items_nil_of_empty v (hpv ▸ hwf p hp) hne
  rw [hdrop] at hstep1
  exact hstep1.trans (mapDiffItems_compareVendorMap oldData newData)

/-- C2: for every integer days-remaining `d` and non-negative threshold `t`,
the risk classification returns exactly one of critical/warning/ok, with
`critical ↔ d < 0`, `warning ↔ 0 ≤ d ≤ t`, and ok exactly otherwise
(`t < d`). -/
theorem classify_trichotomy (d t : Int) (ht : 0 ≤ t) :
    (classify d t = .critical ∨ classify d t = .warning ∨ classify d t = .ok) ∧
    (classify d t = .critical ↔ d < 0) ∧
    (classify d t = .warning ↔ 0 ≤ d ∧ d ≤ t) ∧
    (classify d t = .ok ↔ t < d) := by
  unfold classify
  split_ifs with h1 h2 <;> refine ⟨?_, ?_, ?_, ?_⟩ <;> simp_all <;> omega

/-- Witness for `classify_trichotomy` at the spec's concrete scenario C:
(-3, 7) is critical, (5, 7) is warning, (9, 7) is ok. -/
theorem classify_trichotomy_witness :
    classify (-3) 7 = .critical ∧ classify 5 7 = .warning ∧ classify 9 7 = .ok :=
  ⟨(classify_trichotomy (-3) 7 (by decide)).2.1.mpr (by decide),
   (classify_trichotomy 5 7 (by decide)).2.2.1.mpr (by decide),
   (classify_trichotomy 9 7 (by decide)).2.2.2.mpr (by decide)⟩

/-- C3 (amended): the **current** parser's days-remaining computation
snaps both "today" and the target to local midnight, divides by ms/day
and rounds; consequently it returns exactly the difference of local
calendar-day indices, for every time zone offset, clock value and target
timestamp — no rounding artifact remains.  (The older duplicate in
src/unnamed/part_005 instead snaps only "today" and takes the ceiling;
see the counterexample.) -/
theorem daysRemainingRound_eq_localDay (off today target : Int) :
    daysRemainingRound off today target = localDay off target - localDay off today := by
  unfold daysRemainingRound jsRoundDiv setMidnight localDay msPerDay
  have h2 : (2 : Int) * 86400000 = 172800000 := by norm_num
  rw [h2]
  omega

/-- Counterexample to C3 as stated: the cited computation of
src/unnamed/part_005 (lines 49-54) does not normalize the target to
midnight and ceils.  For the parseable Excel serial 25570.25 (epoch-ms
108000000, i.e. 06:00 one day after the epoch) with "today" at the epoch
midnight and a zero offset, it answers 2 where the
normalize-both-then-round computation answers 1. -/
theorem daysRemainingCeil_cex :
    daysRemainingCeil 0 0 108000000 = 2 ∧ daysRemainingRound 0 0 108000000 = 1 := by
  decide

/-- C8 (amended): a revised-date edit — manual or AI-confirmed, both run
through `handleUpdateItem` — changes only `revizeTarih`; the stored
days-remaining and risk bucket of every line are left untouched, and the
threshold-change recomputation (`recalculateStatus`) also never rewrites
days-remaining.  Days-remaining is therefore **not** recomputed from the
effective date after a date mutation. -/
theorem updateItem_preserves_derived (data : List SapOrderItem) (sa no nd : String) :
    (handleUpdateItemData data sa no nd).map (fun i => i.kalanGun) =
      data.map (fun i => i.kalanGun) ∧
    (handleUpdateItemData data sa no nd).map (fun i => i.status) =
      data.map (fun i => i.status) ∧
    ∀ t : Int, (recalculateStatus data t).map (fun i => i.kalanGun) =
      data.map (fun i => i.kalanGun) := by
  refine ⟨?_, ?_, ?_⟩
  · rw [handleUpdateItemData, List.map_map]
    apply List.map_congr_left
    intro i _
    simp only [Function.comp_apply, updateOne]
    split <;> rfl
  · rw [handleUpdateItemData, List.map_map]
    apply List.map_congr_left
    intro i _
    simp only [Function.comp_apply, updateOne]
    split <;> rfl
  · intro t
    rw [recalculateStatus, List.map_map]
    rfl

/-- Counterexample to C8 as stated: updating the revised date of
`itemA`'s order line sets `revizeTarih` but leaves the stored
days-remaining at its load-time value 5 and the bucket at `ok`, even
though (under the `envC` clock/calendar) the effective date now computes
to 0 days remaining — the stale value is what classification and the
dashboard observe. -/
theorem updateItem_stale_cex :
    (handleUpdateItemData [itemA] "450001" "" "15.05.2025").head? =
      some { itemA with revizeTarih := some "15.05.2025" } ∧
    ({ itemA with revizeTarih := some "15.05.2025" } : SapOrderItem).kalanGun = 5 ∧
    ({ itemA with revizeTarih := some "15.05.2025" } : SapOrderItem).status = some .ok ∧
    effectiveDate { itemA with revizeTarih := some "15.05.2025" } = some "15.05.2025" ∧
    parseDateToDaysRemaining envC (Cell.str "15.05.2025") = some 0 ∧ (5 : Int) ≠ 0 := by
  decide

theorem updateMatches_iff (sa no : String) (item : SapOrderItem) :
    updateMatches sa no item = true ↔
      item.saBelgesi = sa ∧ (no = "" ∨ item.sasKalemNo = some no) := by
  cases hk : item.sasKalemNo <;> simp [updateMatches, hk] <;> tauto

/-- C10: the date-update operation applied to the loaded collection:
with an empty item-number argument it revises every line of the matching
purchase order, with a non-empty one only the line whose item number
matches exactly; matched lines get only `revizeTarih` replaced and
non-matching lines are returned unchanged (second conjunct: no other
field of any line ever changes). -/
theorem handleUpdateItem_spec (data : List SapOrderItem) (sa no nd : String) :
    handleUpdateItemData data sa no nd =
      data.map (fun item =>
        if item.saBelgesi = sa ∧ (no = "" ∨ item.sasKalemNo = some no) then
          { item with revizeTarih := some nd }
        else item) ∧
    ∀ item : SapOrderItem,
      (updateOne sa no nd item).saBelgesi = item.saBelgesi ∧
      (updateOne sa no nd item).kalanGun = item.kalanGun ∧
      (updateOne sa no nd item).saticiKodu = item.saticiKodu ∧
      (updateOne sa no nd item).saticiAdi = item.saticiAdi ∧
      (updateOne sa no nd item).malzeme = item.malzeme ∧
      (updateOne sa no nd item).kisaMetin = item.kisaMetin ∧
      (updateOne sa no nd item).sasMiktari = item.sasMiktari ∧
      (updateOne sa no nd item).malGirisMiktari = item.malGirisMiktari ∧
      (updateOne sa no nd item).bakiyeMiktari = item.bakiyeMiktari ∧
      (updateOne sa no nd item).olcuBirimi = item.olcuBirimi ∧
      (updateOne sa no nd item).teslimatTarihi = item.teslimatTarihi ∧
      (updateOne sa no nd item).ilkTarih = item.ilkTarih ∧
      (updateOne sa no nd item).sasKalemNo = item.sasKalemNo ∧
      (updateOne sa no nd item).aciklama = item.aciklama ∧
      (updateOne sa no nd item).talepEden = item.talepEden ∧
      (updateOne sa no nd item).olusturan = item.olusturan ∧
      (updateOne sa no nd item).status = item.status := by
  constructor
  · rw [handleUpdateItemData]
    apply List.map_congr_left
    intro item _
    by_cases hm : updateMatches sa no item = true
    · rw [updateOne, if_pos hm, if_pos ((updateMatches_iff sa no item).mp hm)]
    · rw [updateOne, if_neg hm, if_neg (fun hp => hm ((updateMatches_iff sa no item).mpr hp))]
  · intro item
    rw [updateOne]
    split <;> simp

/-- C1 (amended): diffing a snapshot against itself yields the empty
report — zero added, zero removed, zero updated and no vendor entries —
for every Order Line collection whose identity keys are pairwise
distinct.  (With duplicate keys the key→line map keeps only the last
line, and self-diff can report spurious updates; see the
counterexample.) -/
theorem compare_self_zero (L : List SapOrderItem) (h : (L.map getItemKey).Nodup) :
    compareDatasets L L =
      { totalAdded := 0, totalRemoved := 0, totalUpdated := 0, vendors := [] } := by
  have hnew : ∀ l ∈ L, classifyNew (buildItemMap L) l = [] := by
    intro l hl
    unfold classifyNew
    rw [buildItemMap_get_self L h l hl]
    simp
  have hold : ∀ l ∈ L, classifyOld (buildItemMap L) l = [] := by
    intro l hl
    unfold classifyOld
    have hs := buildItemMap_get_isSome L l hl
    simp [JsMap.has, hs]
  have h1 : (L.map (classifyNew (buildItemMap L))).flatten = [] := by
    rw [List.flatten_eq_nil_iff]
    intro s hs
    rcases List.mem_map.mp hs with ⟨l, hl, rfl⟩
    exact hnew l hl
  have h2 : (L.map (classifyOld (buildItemMap L))).flatten = [] := by
    rw [List.flatten_eq_nil_iff]
    intro s hs
    rcases List.mem_map.mp hs with ⟨l, hl, rfl⟩
    exact hold l hl
  have hflat : mapDiffItems (compareVendorMap L L) = [] := by
    have hperm := mapDiffItems_compareVendorMap L L
    rw [h1, h2] at hperm
    exact hperm.eq_nil
  have hvend : compareVendors L L = [] := by
    unfold compareVendors
    have hfilter : (((compareVendorMap L L).map Prod.snd).filter vendorNonEmpty) = [] := by
      rw [List.filter_eq_nil_iff]
      intro v hv
      rcases List.mem_map.mp hv with ⟨p, hp, rfl⟩
      have hwf := MapWF_compareVendorMap L L p hp
      have hitems : p.2.items = [] := by
        refine (List.flatten_eq_nil_iff.mp hflat) p.2.items ?_
        exact List.mem_map_of_mem (fun q => q.2.items) hp
      obtain ⟨ha, hr, hu, _⟩ := hwf
      simp [vendorNonEmpty, ha, hr, hu, hitems]
    rw [hfilter]
    rfl
  simp [compareDatasets, hvend, sumBy]

/-- Witness for `compare_self_zero` on a concrete one-line snapshot. -/
theorem compare_self_zero_witness :
    compareDatasets [itemD] [itemD] =
      { totalAdded := 0, totalRemoved := 0, totalUpdated := 0, vendors := [] } :=
  compare_self_zero [itemD] (by decide)

/-- Counterexample to C1 as stated: for the collection
`[itemB1, itemB2]`, whose two lines share one identity key but differ in
effective date, the self-diff reports one spurious update (the map keeps
only the last line per key, so the first line is compared against the
second). -/
theorem compare_self_dup_cex :
    (compareDatasets [itemB1, itemB2] [itemB1, itemB2]).totalUpdated = 1 ∧
    (compareDatasets [itemB1, itemB2] [itemB1, itemB2]).totalAdded = 0 ∧
    (compareDatasets [itemB1, itemB2] [itemB1, itemB2]).totalRemoved = 0 := by
  decide

/-- C4: for every line `l` of the new snapshot: if its identity key is
absent from the old key→line map it appears in the report as `added`; if
present with a differing effective date it appears as `updated` carrying
the old and new effective dates; if present with the identical effective
date, no diff item whatsoever carries `l`. -/
theorem diff_new_line_classification (oldData newData : List SapOrderItem)
    (l : SapOrderItem) (hl : l ∈ newData) :
    ((buildItemMap oldData).get (getItemKey l) = none →
      ({ type := .added, item := l } : DiffItem) ∈
        reportItems (compareDatasets oldData newData)) ∧
    (∀ o, (buildItemMap oldData).get (getItemKey l) = some o →
      effectiveDate o ≠ effectiveDate l →
      ({ type := .updated, item := l, oldDate := effectiveDate o,
         newDate := effectiveDate l } : DiffItem) ∈
        reportItems (compareDatasets oldData newData)) ∧
    (∀ o, (buildItemMap oldData).get (getItemKey l) = some o →
      effectiveDate o = effectiveDate l →
      ∀ d ∈ reportItems (compareDatasets oldData newData), d.item ≠ l) := by
  have hperm := reportItems_perm oldData newData
  refine ⟨?_, ?_, ?_⟩
  · intro hnone
    rw [hperm.mem_iff]
    apply List.mem_append_left
    rw [List.mem_flatten]
    refine ⟨classifyNew (buildItemMap oldData) l, List.mem_map_of_mem _ hl, ?_⟩
    simp [classifyNew, hnone]
  · intro o ho hne
    rw [hperm.mem_iff]
    apply List.mem_append_left
    rw [List.mem_flatten]
    refine ⟨classifyNew (buildItemMap oldData) l, List.mem_map_of_mem _ hl, ?_⟩
    unfold classifyNew
    rw [ho]
    dsimp only
    rw [if_pos hne]
    exact List.mem_singleton.mpr rfl
  · intro o ho heq d hd hdl
    rw [hperm.mem_iff] at hd
    rcases List.mem_append.mp hd with hd | hd
    · rcases List.mem_flatten.mp hd with ⟨s, hs, hds⟩
      rcases List.mem_map.mp hs with ⟨x, hx, rfl⟩
      unfold classifyNew at hds
      cases hget : (buildItemMap oldData).get (getItemKey x) with
      | none =>
          rw [hget] at hds
          dsimp only at hds
          rcases List.mem_singleton.mp hds with rfl
          rw [show x = l from hdl] at hget
          rw [ho] at hget
          exact Option.noConfusion hget
      | some o2 =>
          rw [hget] at hds
          dsimp only at hds
          by_cases hne2 : effectiveDate o2 ≠ effectiveDate x
          · rw [if_pos hne2] at hds
            rcases List.mem_singleton.mp hds with rfl
            rw [show x = l from hdl] at hget hne2
            rw [ho] at hget
            cases hget
            exact hne2 heq
          · rw [if_neg hne2] at hds
            exact absurd hds (List.not_mem_nil d)
    · rcases List.mem_flatten.mp hd with ⟨s, hs, hds⟩
      rcases List.mem_map.mp hs with ⟨x, hx, rfl⟩
      unfold classifyOld at hds
      by_cases hhas : (buildItemMap newData).has (getItemKey x) = true
      · rw [if_pos hhas] at hds
        exact absurd hds (List.not_mem_nil d)
      · rw [if_neg hhas] at hds
        rcases List.mem_singleton.mp hds with rfl
        apply hhas
        rw [show x = l from hdl]
        unfold JsMap.has
        have := buildItemMap_get_isSome newData l hl
        exact this

/-- Witness for `diff_new_line_classification`: against an empty old
snapshot, `itemE` is reported as added. -/
theorem diff_new_line_classification_witness :
    ({ type := DiffType.added, item := itemE } : DiffItem) ∈
      reportItems (compareDatasets [] [itemE]) :=
  (diff_new_line_classification [] [itemE] itemE (by decide)).1 (by decide)

theorem added_key_mem_iff (oldData newData : List SapOrderItem) (k : String) :
    k ∈ addedKeys (compareDatasets oldData newData) ↔
      ∃ b ∈ newData, getItemKey b = k ∧
        (buildItemMap oldData).get (getItemKey b) = none := by
  unfold addedKeys
  constructor
  · intro hk
    rcases List.mem_map.mp hk with ⟨d, hd, hdk⟩
    obtain ⟨hmem, htype⟩ := List.mem_filter.mp hd
    rw [(reportItems_perm oldData newData).mem_iff] at hmem
    rcases List.mem_append.mp hmem with hmem | hmem
    · rcases List.mem_flatten.mp hmem with ⟨s, hs, hds⟩
      rcases List.mem_map.mp hs with ⟨x, hx, rfl⟩
      unfold classifyNew at hds
      cases hget : (buildItemMap oldData).get (getItemKey x) with
      | none =>
          rw [hget] at hds
          dsimp only at hds
          rcases List.mem_singleton.mp hds with rfl
          exact ⟨x, hx, hdk, hget⟩
      | some o2 =>
          rw [hget] at hds
          dsimp only at hds
          by_cases hne2 : effectiveDate o2 ≠ effectiveDate x
          · rw [if_pos hne2] at hds
            rcases List.mem_singleton.mp hds with rfl
            simp at htype
          · rw [if_neg hne2] at hds
            exact absurd hds (List.not_mem_nil d)
    · rcases List.mem_flatten.mp hmem with ⟨s, hs, hds⟩
      rcases List.mem_map.mp hs with ⟨x, hx, rfl⟩
      unfold classifyOld at hds
      by_cases hhas : (buildItemMap newData).has (getItemKey x) = true
      · rw [if_pos hhas] at hds
        exact absurd hds (List.not_mem_nil d)
      · rw [if_neg hhas] at hds
        rcases List.mem_singleton.mp hds with rfl
        simp at htype
  · rintro ⟨b, hb, hbk, hbnone⟩
    apply List.mem_map.mpr
    refine ⟨{ type := .added, item := b }, ?_, hbk⟩
    apply List.mem_filter.mpr
    refine ⟨?_, by simp⟩
    rw [(reportItems_perm oldData newData).mem_iff]
    apply List.mem_append_left
    rw [List.mem_flatten]
    refine ⟨classifyNew (buildItemMap oldData) b, List.mem_map_of_mem _ hb, ?_⟩
    simp [classifyNew, hbnone]

theorem removed_key_mem_iff (oldData newData : List SapOrderItem) (k : String) :
    k ∈ removedKeys (compareDatasets oldData newData) ↔
      ∃ b ∈ oldData, getItemKey b = k ∧
        (buildItemMap newData).get (getItemKey b) = none := by
  unfold removedKeys
  constructor
  · intro hk
    rcases List.mem_map.mp hk with ⟨d, hd, hdk⟩
    obtain ⟨hmem, htype⟩ := List.mem_filter.mp hd
    rw [(reportItems_perm oldData newData).mem_iff] at hmem
    rcases List.mem_append.mp hmem with hmem | hmem
    · rcases List.mem_flatten.mp hmem with ⟨s, hs, hds⟩
      rcases List.mem_map.mp hs with ⟨x, hx, rfl⟩
      unfold classifyNew at hds
      cases hget : (buildItemMap oldData).get (getItemKey x) with
      | none =>
          rw [hget] at hds
          dsimp only at hds
          rcases List.mem_singleton.mp hds with rfl
          simp at htype
      | some o2 =>
          rw [hget] at hds
          dsimp only at hds
          by_cases hne2 : effectiveDate o2 ≠ effectiveDate x
          · rw [if_pos hne2] at hds
            rcases List.mem_singleton.mp hds with rfl
            simp at htype
          · rw [if_neg hne2] at hds
            exact absurd hds (List.not_mem_nil d)
    · rcases List.mem_flatten.mp hmem with ⟨s, hs, hds⟩
      rcases List.mem_map.mp hs with ⟨x, hx, rfl⟩
      unfold classifyOld at hds
      by_cases hhas : (buildItemMap newData).has (getItemKey x) = true
      · rw [if_pos hhas] at hds
        exact absurd hds (List.not_mem_nil d)
      · rw [if_neg hhas] at hds
        rcases List.mem_singleton.mp hds with rfl
        refine ⟨x, hx, hdk, ?_⟩
        unfold JsMap.has at hhas
        exact Option.not_isSome_iff_eq_none.mp (fun hs2 => hhas hs2)
  · rintro ⟨b, hb, hbk, hbnone⟩
    apply List.mem_map.mpr
    refine ⟨{ type := .removed, item := b }, ?_, hbk⟩
    apply List.mem_filter.mpr
    refine ⟨?_, by simp⟩
    rw [(reportItems_perm oldData newData).mem_iff]
    apply List.mem_append_right
    rw [List.mem_flatten]
    refine ⟨classifyOld (buildItemMap newData) b, List.mem_map_of_mem _ hb, ?_⟩
    simp [classifyOld, JsMap.has, hbnone]

/-- C7: for any snapshots `A`, `B` and any identity key `k`: `k` is among
the keys `diff(A,B)` classifies as added exactly when `diff(B,A)`
classifies it as removed, and vice versa. -/
theorem diff_added_removed_symmetry (A B : List SapOrderItem) (k : String) :
    (k ∈ addedKeys (compareDatasets A B) ↔ k ∈ removedKeys (compareDatasets B A)) ∧
    (k ∈ removedKeys (compareDatasets A B) ↔ k ∈ addedKeys (compareDatasets B A)) := by
  constructor
  · rw [added_key_mem_iff, removed_key_mem_iff]
  · rw [removed_key_mem_iff, added_key_mem_iff]

/-- C5: every Order Line in the Row Mapper's output passes the
disqualifying filter: a mapped row whose order number is blank or the
literal "undefined", or whose resolved supplier name is the Unknown
Supplier sentinel, never appears — each condition alone disqualifies the
row, whatever the other field values are. -/
theorem mapped_rows_filtered (env : JsEnv) (idx : ColIdx) (rows : List (List Cell)) :
    ∀ item ∈ mapRows env idx rows,
      item.saBelgesi ≠ "" ∧ item.saBelgesi ≠ "undefined" ∧
        item.saticiAdi ≠ "Bilinmeyen Tedarikçi" := by
  intro item hmem
  have hf := (List.mem_filter.mp hmem).2
  unfold rowFilter strTruthy at hf
  simp only [Bool.and_eq_true, decide_eq_true_eq, ne_eq] at hf
  exact ⟨hf.1.1, hf.1.2, hf.2⟩

/-- Witness for `mapped_rows_filtered` on a concrete surviving row. -/
theorem mapped_rows_filtered_witness :
    (mapRow envC idxC5 rowC5).saBelgesi ≠ "" ∧
    (mapRow envC idxC5 rowC5).saticiAdi ≠ "Bilinmeyen Tedarikçi" := by
  have h := mapped_rows_filtered envC idxC5 [rowC5] (mapRow envC idxC5 rowC5) (by decide)
  exact ⟨h.1, h.2.2⟩

/-- C6 (amended): in the **current** parser, whenever the delivery-date
cell parses, its computed days-remaining is what is stored — the literal
"KALAN GÜN" number is overwritten; the literal number is consulted only
when the date is absent or unparseable.  (The older duplicate parser in
src/unnamed/part_005 has the opposite priority; see the counterexample.) -/
theorem mapRow_date_precedence (env : JsEnv) (idx : ColIdx) (row : List Cell) :
    (∀ c : Int, parseDateToDaysRemaining env (cellAt row idx.teslimatTarihi) = some c →
      (mapRow env idx row).kalanGun = c) ∧
    (parseDateToDaysRemaining env (cellAt row idx.teslimatTarihi) = none →
      (mapRow env idx row).kalanGun =
        if kalanGuard (cellAt row idx.kalanGun) = true then
          jsParseIntCell (cellAt row idx.kalanGun)
        else 0) := by
  constructor
  · intro c hc
    have ht : cellTruthy (cellAt row idx.teslimatTarihi) = true := by
      by_contra hcontra
      have hfalse : cellTruthy (cellAt row idx.teslimatTarihi) = false := by
        simpa using hcontra
      have : parseDateToDaysRemaining env (cellAt row idx.teslimatTarihi) = none := by
        unfold parseDateToDaysRemaining
        rw [hfalse]
        rfl
      rw [this] at hc
      exact Option.noConfusion hc
    simp [mapRow, ht, hc]
  · intro hn
    by_cases ht : cellTruthy (cellAt row idx.teslimatTarihi) = true
    · simp [mapRow, ht, hn]
    · have ht2 : cellTruthy (cellAt row idx.teslimatTarihi) = false := by simpa using ht
      simp [mapRow, ht2]

/-- Witness for `mapRow_date_precedence`: the stored days-remaining is
the date-derived 1, not the literal 99. -/
theorem mapRow_date_precedence_witness : (mapRow envC idxC6 rowC6).kalanGun = 1 :=
  (mapRow_date_precedence envC idxC6 rowC6).1 1 (by decide)

/-- Counterexample to C6 as stated: the older duplicate parser cited by
the claim (src/unnamed/part_005 lines 156-168) stores the literal 99
even though the delivery date parses (to 1 day remaining under `envC`). -/
theorem kalanGunOld_literal_cex :
    kalanGunOld envC (Cell.num 99) (Cell.num 25570) = 99 ∧
    parseDateToDaysRemainingOld envC (Cell.num 25570) = some 1 ∧ (99 : Int) ≠ 1 := by
  decide

/-- C9 (amended): a missing column is not an error — the Row Mapper is
total and substitutes a per-field default: empty string for the plain
string fields, zero for the numeric fields and for days-remaining (when
the delivery-date column is missing too), no value for the date strings;
the exceptions to the claim's empty/zero rule are the unit of measure,
which defaults to "ADT", and the supplier name, which falls back through
the documented chain to the Unknown Supplier sentinel. -/
theorem mapRow_missing_column_defaults (env : JsEnv) (idx : ColIdx) (row : List Cell) :
    (idx.saBelgesi = -1 → (mapRow env idx row).saBelgesi = "") ∧
    (idx.sasKalemNo = -1 → (mapRow env idx row).sasKalemNo = some "") ∧
    (idx.malzeme = -1 → (mapRow env idx row).malzeme = "") ∧
    (idx.kisaMetin = -1 → (mapRow env idx row).kisaMetin = "") ∧
    (idx.talepEden = -1 → (mapRow env idx row).talepEden = some "") ∧
    (idx.olusturan = -1 → (mapRow env idx row).olusturan = some "") ∧
    (idx.aciklama = -1 → (mapRow env idx row).aciklama = some "") ∧
    (idx.saticiKodu = -1 → (mapRow env idx row).saticiKodu = "") ∧
    (idx.sasMiktari = -1 → (mapRow env idx row).sasMiktari = some 0) ∧
    (idx.bakiyeMiktari = -1 → (mapRow env idx row).bakiyeMiktari = some 0) ∧
    (idx.kalanGun = -1 ∧ idx.teslimatTarihi = -1 → (mapRow env idx row).kalanGun = 0) ∧
    (idx.teslimatTarihi = -1 → (mapRow env idx row).teslimatTarihi = none) ∧
    (idx.ilkTarih = -1 → (mapRow env idx row).ilkTarih = none) ∧
    (idx.olcuBirimi = -1 → (mapRow env idx row).olcuBirimi = "ADT") ∧
    (idx.saticiAdi = -1 ∧ idx.saticiKodu = -1 →
      (mapRow env idx row).saticiAdi = "Bilinmeyen Tedarikçi") := by
  refine ⟨?_, ?_, ?_, ?_, ?_, ?_, ?_, ?_, ?_, ?_, ?_, ?_, ?_, ?_, ?_⟩
  · intro h; simp [mapRow, h, cellAt, cellToStr]
  · intro h; simp [mapRow, h, cellAt, cellToStr]
  · intro h; simp [mapRow, h, cellAt, cellToStr]
  · intro h; simp [mapRow, h, cellAt, cellToStr]
  · intro h; simp [mapRow, h, cellAt, cellToStr]
  · intro h; simp [mapRow, h, cellAt, cellToStr]
  · intro h; simp [mapRow, h, cellAt, cellToStr]
  · intro h; simp [mapRow, h, cellAt, cellToStr]
  · intro h; simp [mapRow, h, cellAt, cellToNum]
  · intro h; simp [mapRow, h, cellAt, cellToNum]
  · rintro ⟨h1, h2⟩
    simp [mapRow, h1, h2, cellAt, cellTruthy, kalanGuard]
  · intro h; simp [mapRow, h, cellAt, formatDisplayDate, cellTruthy]
  · intro h; simp [mapRow, h, cellAt, formatDisplayDate, cellTruthy]
  · intro h; simp [mapRow, h, cellAt, cellToStrOr]
  · rintro ⟨h1, h2⟩
    simp [mapRow, h1, h2, cellAt, cellToStr]

/-- Witness for `mapRow_missing_column_defaults` on the all-missing
layout and an empty raw row. -/
theorem mapRow_missing_column_defaults_witness :
    (mapRow envC idxNone []).malzeme = "" ∧ (mapRow envC idxNone []).sasMiktari = some 0 ∧
    (mapRow envC idxNone []).kalanGun = 0 := by
  obtain ⟨h1, h2, h3, h4, h5, h6, h7, h8, h9, h10, h11, h12, h13, h14, h15⟩ :=
    mapRow_missing_column_defaults envC idxNone []
  exact ⟨h3 rfl, h9 rfl, h11 ⟨rfl, rfl⟩⟩

/-- Counterexample to C9 as stated: with the unit-of-measure column
missing, the mapped line's unit field is "ADT", not the empty string the
claim prescribes for missing string columns. -/
theorem mapRow_olcuBirimi_cex :
    (mapRow envC idxNone []).olcuBirimi = "ADT" ∧ ("ADT" : String) ≠ "" := by
  decide
